import Mathlib

/-!
Shallow embedding of `frontends/PyCDE/src/pycde/support.py`: the
value-to-attribute encoder `_obj_to_attribute`, the typed variant
`obj_to_typed_attribute`, the type-inference routine `_infer_type`, and the
stack-filtering location resolver `get_user_loc`, together with the theorems
that settle the specification claims about them.
-/

set_option autoImplicit false

namespace PycdeSupport

/-- MLIR attributes, as produced by the `ir.*Attr.get` factories used in
`support.py`.  `typeAttr` wraps an `ir.Type` (modelled by its textual name);
`customAttr` models an opaque domain attribute (such as the attribute
underlying an `AppID`). -/
inductive Attr where
  | boolAttr (b : Bool)
  | intAttr (width : Nat) (value : Int)
  | strAttr (s : String)
  | typeAttr (t : String)
  | arrayAttr (elems : List Attr)
  | dictAttr (entries : List (String × Attr))
  | customAttr (tag : Nat)

/-- PyCDE types as far as `support.py` inspects them: `bits w` is a
`BitVectorType` of declared width `w` (whose `_type` is the signless
`ir.IntegerType` of width `w`), `array` is the `Array` type constructed by
`_infer_type`, `other` is any other declared type, and `noneType` models the
Python `None` that `_infer_type` returns for values carrying no type signal. -/
inductive CDEType where
  | bits (width : Nat)
  | array (elem : CDEType) (size : Nat)
  | other (name : String)
  | noneType
deriving DecidableEq

/-- Python values in the domain of `_obj_to_attribute` and `_infer_type`.
`pynone` is Python `None`; `attr` is an existing `ir.Attribute`; `typ` is an
`ir.Type`; `signal` is a PyCDE `Signal` carrying its `.type` and its instance
fields (its `__dict__`); `appid` is an `AppID` carrying its `_appid`
attribute; `obj typeName fields` is any other object of class `typeName`,
with `fields = some l` when the object has a `__dict__` holding `l` and
`fields = none` when it has no `__dict__` (for example a `float`). -/
inductive PyVal where
  | pynone
  | attr (a : Attr)
  | typ (t : String)
  | bool (b : Bool)
  | int (i : Int)
  | str (s : String)
  | list (xs : List PyVal)
  | tuple (xs : List PyVal)
  | dict (entries : List (String × PyVal))
  | signal (type : CDEType) (fields : List (String × PyVal))
  | appid (a : Attr)
  | obj (typeName : String) (fields : Option (List (String × PyVal)))

/-- The one failure `_obj_to_attribute` can signal: the Python `TypeError`
raised at the end of the dispatch chain, carrying the name of the class of
the value it was raised for. -/
inductive EncodeErr where
  | typeError (typeName : String)
deriving DecidableEq

/-- Modelled from the spec: Python truthiness of an `ir.Attribute`, as used by
the `all(arr)` test in `_obj_to_attribute`.  The `ir` library is an external
collaborator not under `src/`; per the spec, the list branch performs a
"non-null/non-empty-attribute check", so an attribute is falsy exactly when it
is an empty `ArrayAttr` or an empty `DictAttr` (the attribute kinds exposing a
Python length), and every other attribute produced here is truthy. -/
def attrTruthy : Attr → Bool
  | .arrayAttr elems => !elems.isEmpty
  | .dictAttr entries => !entries.isEmpty
  | _ => true

/-- Python treats `bool` as a subclass of `int`, so `isinstance(obj, int)`
also holds for booleans: dispatch order in `_obj_to_attribute` is what sends
booleans to `BoolAttr` rather than `IntegerAttr`. -/
def isinstanceInt : PyVal → Bool
  | .bool _ => true
  | .int _ => true
  | _ => false

mutual

/-- `_obj_to_attribute` from `support.py`: create an MLIR attribute from a
Python object, dispatching in source order.  The list/tuple branch encodes
every element, then wraps as `ArrayAttr` only when `all(arr)` holds; otherwise
the Python code falls through the remaining `isinstance` checks (none of which
a list or tuple satisfies, and lists/tuples have no `__dict__`) and raises the
final `TypeError`. -/
def _obj_to_attribute : PyVal → Except EncodeErr Attr
  | .pynone => .ok (.boolAttr false)
  | .attr a => .ok a
  | .typ t => .ok (.typeAttr t)
  | .bool b => .ok (.boolAttr b)
  | .int i => .ok (.intAttr 64 i)
  | .str s => .ok (.strAttr s)
  | .list xs =>
      match encodeList xs with
      | .error e => .error e
      | .ok arr =>
          if arr.all attrTruthy then .ok (.arrayAttr arr)
          else .error (.typeError "list")
  | .tuple xs =>
      match encodeList xs with
      | .error e => .error e
      | .ok arr =>
          if arr.all attrTruthy then .ok (.arrayAttr arr)
          else .error (.typeError "tuple")
  | .dict entries =>
      match encodeEntries entries with
      | .error e => .error e
      | .ok l => .ok (.dictAttr l)
  | .signal _ fields =>
      match encodeEntries fields with
      | .error e => .error e
      | .ok l => .ok (.dictAttr l)
  | .appid a => .ok a
  | .obj _ (some fields) =>
      match encodeEntries fields with
      | .error e => .error e
      | .ok l => .ok (.dictAttr l)
  | .obj typeName none => .error (.typeError typeName)

/-- The elementwise encoding `[_obj_to_attribute(x) for x in obj]` of the
list/tuple branch: the first raised `TypeError` propagates. -/
def encodeList : List PyVal → Except EncodeErr (List Attr)
  | [] => .ok []
  | x :: xs =>
      match _obj_to_attribute x with
      | .error e => .error e
      | .ok a =>
          match encodeList xs with
          | .error e => .error e
          | .ok tl => .ok (a :: tl)

/-- The dict comprehension `{name: _obj_to_attribute(value) ...}` used by the
dict branch and by the `__dict__` branch: keys kept in order, first raised
`TypeError` propagates. -/
def encodeEntries : List (String × PyVal) → Except EncodeErr (List (String × Attr))
  | [] => .ok []
  | (k, v) :: rest =>
      match _obj_to_attribute v with
      | .error e => .error e
      | .ok a =>
          match encodeEntries rest with
          | .error e => .error e
          | .ok tl => .ok ((k, a) :: tl)

end

/-- The failures `_infer_type` can raise: `indexError` is the Python
`IndexError` produced by `list_types[0]` on an empty sequence; the other three
are the `ValueError`s raised with the messages "CIRCT array must be homogenous,
unlike object", "Cannot infer width of ..." and "Cannot infer struct field
order of ..." respectively. -/
inductive InferErr where
  | indexError
  | notHomogenous
  | cannotInferWidth
  | cannotInferStructOrder
deriving DecidableEq

/-- Whether an `_infer_type` failure is one of the `ValueError`s the function
itself raises, as opposed to the `IndexError` escaping from `list_types[0]`. -/
def InferErr.isValueError : InferErr → Bool
  | .indexError => false
  | _ => true

mutual

/-- `_infer_type` from `support.py`: infer the CIRCT type of a Python object.
A `Signal` yields its own `.type`; a list or tuple infers every element, reads
`list_types[0]` (an `IndexError` when the sequence is empty), requires all
inferred element types equal, and yields `Array(list_type, len(x))`; a bare
`int` (which in Python includes `bool`) and a bare `dict` raise `ValueError`;
everything else yields Python `None`, modelled as `CDEType.noneType`. -/
def _infer_type : PyVal → Except InferErr CDEType
  | .signal t _ => .ok t
  | .list xs =>
      match inferList xs with
      | .error e => .error e
      | .ok list_types =>
          match list_types with
          | [] => .error .indexError
          | list_type :: _ =>
              if list_types.all (fun i => i == list_type) then
                .ok (.array list_type xs.length)
              else .error .notHomogenous
  | .tuple xs =>
      match inferList xs with
      | .error e => .error e
      | .ok list_types =>
          match list_types with
          | [] => .error .indexError
          | list_type :: _ =>
              if list_types.all (fun i => i == list_type) then
                .ok (.array list_type xs.length)
              else .error .notHomogenous
  | .bool _ => .error .cannotInferWidth
  | .int _ => .error .cannotInferWidth
  | .dict _ => .error .cannotInferStructOrder
  | _ => .ok .noneType

/-- The elementwise inference `[_infer_type(i) for i in x]` of the list/tuple
branch: the first raised error propagates. -/
def inferList : List PyVal → Except InferErr (List CDEType)
  | [] => .ok []
  | x :: xs =>
      match _infer_type x with
      | .error e => .error e
      | .ok t =>
          match inferList xs with
          | .error e => .error e
          | .ok tl => .ok (t :: tl)

end

/-- The failure `obj_to_typed_attribute` can signal: the `ValueError` raised
for a declared type that is not a `BitVectorType`, carrying that type. -/
inductive TypedConvErr where
  | unsupportedType (t : CDEType)
deriving DecidableEq

/-- Whether a PyCDE type is a `BitVectorType` (a fixed-width bit-vector). -/
def CDEType.isBitVector : CDEType → Bool
  | .bits _ => true
  | _ => false

/-- `obj_to_typed_attribute` from `support.py`: when the declared type is a
`BitVectorType`, build `ir.IntegerAttr.get(type._type, obj)` — an integer
attribute at the type's declared width; for any other declared type raise
`ValueError`.  The value is an integer, the well-formed input domain of the
`IntegerAttr` factory. -/
def obj_to_typed_attribute (obj : Int) (type : CDEType) : Except TypedConvErr Attr :=
  match type with
  | .bits width => .ok (.intAttr width obj)
  | _ => .error (.unsupportedType type)

/-- One frame of `traceback.extract_stack()`: a source file path and a line
number.  `extract_stack` returns the outermost caller first. -/
structure Frame where
  filename : String
  lineno : Nat
deriving DecidableEq

/-- MLIR locations as built by `get_user_loc`: `ir.Location.file`,
`ir.Location.unknown` and `ir.Location.callsite(primary, parents)`. -/
inductive Loc where
  | file (filename : String) (line : Nat) (col : Nat)
  | unknown
  | callsite (primary : Loc) (parents : List Loc)

/-- `_hidden_filenames` from `support.py`: the set of file basenames whose
frames `get_user_loc` discards. -/
def _hidden_filenames : List String := ["functools.py", "support.py"]

/-- `os.path.split(p)[1]`: the basename of a path, everything after the final
slash (the whole string when there is no slash). -/
def path_split_tail (p : String) : String :=
  ⟨p.data.foldl (fun acc c => if c = '/' then [] else acc ++ [c]) []⟩

/-- `ir.Location.file(frame.filename, frame.lineno, 0)` for a kept frame. -/
def frameLoc (f : Frame) : Loc :=
  .file f.filename f.lineno 0

/-- The `stack_locs` list built by the loop in `get_user_loc`: walk the
reversed extracted stack (innermost frame first), skip every frame whose file
basename is in `_hidden_filenames`, and collect a file location for each
remaining frame. -/
def stack_locs (stack : List Frame) : List Loc :=
  stack.reverse.filterMap fun frame =>
    if path_split_tail frame.filename ∈ _hidden_filenames then none
    else some (frameLoc frame)

/-- `get_user_loc` from `support.py`, taking the extracted stack (outermost
frame first, as `traceback.extract_stack` returns it) as input: an unknown
location when no frame survives filtering, otherwise a callsite whose primary
location is the first surviving (innermost) frame and whose parents are the
remaining surviving frames in call order. -/
def get_user_loc (stack : List Frame) : Loc :=
  match stack_locs stack with
  | [] => .unknown
  | l :: ls => .callsite l ls

/-- The frames of the reversed stack that survive the `_hidden_filenames`
filter, in the order the loop in `get_user_loc` visits them. -/
def keptFrames (stack : List Frame) : List Frame :=
  stack.reverse.filter fun frame =>
    !decide (path_split_tail frame.filename ∈ _hidden_filenames)

theorem stack_locs_eq_keptFrames (stack : List Frame) :
    stack_locs stack = (keptFrames stack).map frameLoc := by
  unfold stack_locs keptFrames
  induction stack.reverse with
  | nil => rfl
  | cons f fs ih =>
      by_cases h : path_split_tail f.filename ∈ _hidden_filenames <;>
        simp [List.filterMap_cons, List.filter_cons, h, ih]

theorem encodeList_ok (xs : List PyVal)
    (h : ∀ x ∈ xs, ∃ a, _obj_to_attribute x = .ok a ∧ attrTruthy a = true) :
    ∃ arr, encodeList xs = .ok arr ∧
      xs.map _obj_to_attribute = arr.map Except.ok ∧
      arr.all attrTruthy = true := by
  induction xs with
  | nil => exact ⟨[], rfl, rfl, rfl⟩
  | cons x xs ih =>
      obtain ⟨a, ha, hta⟩ := h x (List.mem_cons_self x xs)
      obtain ⟨arr, he, hmap, hall⟩ :=
        ih fun y hy => h y (List.mem_cons_of_mem x hy)
      refine ⟨a :: arr, ?_, ?_, ?_⟩
      · simp [encodeList, ha, he]
      · simp [ha, hmap]
      · simp [hta, hall]

theorem encodeEntries_ok (entries : List (String × PyVal))
    (h : ∀ kv ∈ entries, ∃ a, _obj_to_attribute kv.2 = .ok a) :
    ∃ l, encodeEntries entries = .ok l ∧
      l.map Prod.fst = entries.map Prod.fst ∧
      entries.map (fun kv => _obj_to_attribute kv.2) =
        l.map (fun kv => Except.ok kv.2) := by
  induction entries with
  | nil => exact ⟨[], rfl, rfl, rfl⟩
  | cons kv rest ih =>
      obtain ⟨k, v⟩ := kv
      obtain ⟨a, ha⟩ := h (k, v) (List.mem_cons_self _ rest)
      obtain ⟨l, he, hfst, hmap⟩ :=
        ih fun kv hkv => h kv (List.mem_cons_of_mem _ hkv)
      refine ⟨(k, a) :: l, ?_, ?_, ?_⟩
      · simp [encodeEntries, ha, he]
      · simp [hfst]
      · simp [ha, hmap]

theorem encodeEntries_error (entries : List (String × PyVal)) (e : EncodeErr)
    (h : encodeEntries entries = .error e) :
    ∃ kv ∈ entries, _obj_to_attribute kv.2 = .error e := by
  induction entries with
  | nil => simp [encodeEntries] at h
  | cons kv rest ih =>
      obtain ⟨k, v⟩ := kv
      rw [encodeEntries] at h
      cases hv : _obj_to_attribute v with
      | error e1 =>
          rw [hv] at h
          cases h
          exact ⟨(k, v), List.mem_cons_self _ rest, hv⟩
      | ok a =>
          rw [hv] at h
          cases hr : encodeEntries rest with
          | error e1 =>
              rw [hr] at h
              cases h
              obtain ⟨kv1, hkv1, hkv2⟩ := ih hr
              exact ⟨kv1, List.mem_cons_of_mem _ hkv1, hkv2⟩
          | ok l => rw [hr] at h; cases h

theorem inferList_ok (xs : List PyVal)
    (h : ∀ x ∈ xs, ∃ t, _infer_type x = .ok t) :
    ∃ ts, inferList xs = .ok ts ∧
      xs.map _infer_type = ts.map Except.ok := by
  induction xs with
  | nil => exact ⟨[], rfl, rfl⟩
  | cons x xs ih =>
      obtain ⟨t, ht⟩ := h x (List.mem_cons_self x xs)
      obtain ⟨ts, he, hmap⟩ := ih fun y hy => h y (List.mem_cons_of_mem x hy)
      refine ⟨t :: ts, ?_, ?_⟩
      · simp [inferList, ht, he]
      · simp [ht, hmap]

/-- C1 counterexample: the empty list encodes successfully (to an empty
`ArrayAttr`), yet the one-element list `[[]]` — all of whose elements encode
successfully — is not encoded to an `ArrayAttr`: its element's encoding is a
falsy empty `ArrayAttr`, the `all(arr)` check fails, and the dispatch falls
through to the final `TypeError`. -/
theorem encode_list_falsy_element_counterexample :
    _obj_to_attribute (.list []) = .ok (.arrayAttr []) ∧
    _obj_to_attribute (.list [.list []]) = .error (.typeError "list") :=
  ⟨rfl, rfl⟩

/-- C1 (amended): for every ordered sequence (list or tuple) all of whose
elements encode successfully to truthy attributes (the `all(arr)` check),
`encode(seq)` returns an `ArrayAttr` whose elements are `encode` applied to
each element of the sequence in the original order, and whose length equals
the length of the sequence. -/
theorem encode_sequence_elementwise (xs : List PyVal)
    (h : ∀ x ∈ xs, ∃ a, _obj_to_attribute x = .ok a ∧ attrTruthy a = true) :
    ∃ arr, _obj_to_attribute (.list xs) = .ok (.arrayAttr arr) ∧
      _obj_to_attribute (.tuple xs) = .ok (.arrayAttr arr) ∧
      arr.length = xs.length ∧
      xs.map _obj_to_attribute = arr.map Except.ok := by
  obtain ⟨arr, he, hmap, hall⟩ := encodeList_ok xs h
  refine ⟨arr, ?_, ?_, ?_, hmap⟩
  · simp [_obj_to_attribute, he, hall]
  · simp [_obj_to_attribute, he, hall]
  · have := congrArg List.length hmap
    simpa using this.symm

/-- C1 witness: the singleton list `[1]` encodes to the one-element
`ArrayAttr` holding the default-width integer attribute. -/
theorem encode_sequence_elementwise_witness :
    ∃ arr, _obj_to_attribute (.list [.int 1]) = .ok (.arrayAttr arr) ∧
      _obj_to_attribute (.tuple [.int 1]) = .ok (.arrayAttr arr) ∧
      arr.length = [PyVal.int 1].length ∧
      [PyVal.int 1].map _obj_to_attribute = arr.map Except.ok :=
  encode_sequence_elementwise [.int 1] (by
    intro x hx
    simp only [List.mem_singleton] at hx
    subst hx
    exact ⟨.intAttr 64 1, rfl, rfl⟩)

/-- C2 counterexample: on the empty list, `_infer_type` evaluates
`list_types[0]` with zero inferred types and crashes with an out-of-range
`IndexError`, which is not one of the defined inference `ValueError`s. -/
theorem infer_empty_index_error_counterexample :
    _infer_type (.list []) = .error InferErr.indexError ∧
    InferErr.isValueError InferErr.indexError = false :=
  ⟨rfl, rfl⟩

/-- C2 (amended): `infer` applied to an empty ordered sequence (empty list or
tuple) does not produce a type, but it fails by indexing the first of zero
inferred types — an out-of-range `IndexError` — rather than signalling one of
the defined inference failure kinds. -/
theorem infer_empty_sequence_raises_index_error :
    _infer_type (.list []) = .error InferErr.indexError ∧
    _infer_type (.tuple []) = .error InferErr.indexError ∧
    ∀ e : InferErr, e.isValueError = true → _infer_type (.list []) ≠ .error e := by
  refine ⟨rfl, rfl, ?_⟩
  intro e he h
  cases h
  cases he

/-- C2 witness: the `IndexError` raised on the empty list is not one of the
defined `ValueError` failure kinds. -/
theorem infer_empty_sequence_raises_index_error_witness :
    _infer_type (.list []) ≠ .error InferErr.notHomogenous :=
  infer_empty_sequence_raises_index_error.2.2 InferErr.notHomogenous rfl

/-- C3: `resolve()` never fails: with the reversed captured stack traversed
innermost-first and every frame whose file basename lies in the exclusion set
discarded, `get_user_loc` returns a callsite chain whose primary location is
the first remaining frame and whose parents are the subsequent remaining
frames in call order; when no frame remains it returns the unknown-location
sentinel. -/
theorem get_user_loc_chain (stack : List Frame) :
    (keptFrames stack = [] → get_user_loc stack = Loc.unknown) ∧
    ∀ f fs, keptFrames stack = f :: fs →
      get_user_loc stack = Loc.callsite (frameLoc f) (fs.map frameLoc) := by
  have h := stack_locs_eq_keptFrames stack
  constructor
  · intro he
    unfold get_user_loc
    rw [h, he]
    rfl
  · intro f fs hf
    unfold get_user_loc
    rw [h, hf]
    rfl

/-- C3 witness: with the innermost frame in an excluded file and two user
frames below it, the result is a callsite at the innermost user frame with the
outer user frame as its parent; with every frame excluded, the result is the
unknown sentinel. -/
theorem get_user_loc_chain_witness :
    get_user_loc [⟨"/u/c.py", 5⟩, ⟨"/u/b.py", 10⟩, ⟨"/x/pycde/support.py", 99⟩] =
      Loc.callsite (Loc.file "/u/b.py" 10 0) [Loc.file "/u/c.py" 5 0] ∧
    get_user_loc [⟨"/x/pycde/support.py", 99⟩] = Loc.unknown :=
  ⟨(get_user_loc_chain [⟨"/u/c.py", 5⟩, ⟨"/u/b.py", 10⟩, ⟨"/x/pycde/support.py", 99⟩]).2
      ⟨"/u/b.py", 10⟩ [⟨"/u/c.py", 5⟩] rfl,
    (get_user_loc_chain [⟨"/x/pycde/support.py", 99⟩]).1 rfl⟩

/-- C9: frame filtering compares only the basename of each frame's file
against the exclusion set: a frame contributes a location exactly when its
file basename is neither "support.py" nor "functools.py", regardless of
directory — in particular a user file named `/home/user/project/support.py`
is discarded. -/
theorem stack_filter_basename_only (stack : List Frame) :
    stack_locs stack =
      (stack.reverse.filter fun frame =>
        decide (path_split_tail frame.filename ≠ "support.py" ∧
                path_split_tail frame.filename ≠ "functools.py")).map frameLoc ∧
    path_split_tail "/home/user/project/support.py" = "support.py" ∧
    stack_locs [⟨"/home/user/project/support.py", 7⟩] = [] := by
  refine ⟨?_, rfl, rfl⟩
  rw [stack_locs_eq_keptFrames]
  unfold keptFrames
  congr 1
  apply List.filter_congr
  intro f _
  by_cases h1 : path_split_tail f.filename = "support.py" <;>
    by_cases h2 : path_split_tail f.filename = "functools.py" <;>
      simp [_hidden_filenames, h1, h2]

/-- C4 counterexample: the pass-through of an empty `ArrayAttr` and a signal
of bit-vector type both encode successfully, and their inferred types differ
(untyped versus the signal's type), so inference on the pair fails with the
homogeneity error — but encoding the pair also fails, because the falsy empty
`ArrayAttr` defeats the `all(arr)` check and the dispatch falls through to
`TypeError`: encoding is not independent of the element attributes. -/
theorem infer_ambiguous_encode_counterexample :
    _obj_to_attribute (.attr (.arrayAttr [])) = .ok (.arrayAttr []) ∧
    _obj_to_attribute (.signal (.bits 1) []) = .ok (.dictAttr []) ∧
    _infer_type (.attr (.arrayAttr [])) = .ok .noneType ∧
    _infer_type (.signal (.bits 1) []) = .ok (.bits 1) ∧
    _infer_type (.list [.attr (.arrayAttr []), .signal (.bits 1) []]) =
      .error .notHomogenous ∧
    _obj_to_attribute (.list [.attr (.arrayAttr []), .signal (.bits 1) []]) =
      .error (.typeError "list") :=
  ⟨rfl, rfl, rfl, rfl, rfl, rfl⟩

/-- C4 (amended): for every sequence whose elements each encode successfully
to truthy attributes and whose element types each infer successfully but are
not all equal, `infer(seq)` fails with the homogeneity error while
`encode(seq)` still succeeds and returns an `ArrayAttr`. -/
theorem infer_ambiguous_encode_truthy (xs : List PyVal)
    (henc : ∀ x ∈ xs, ∃ a, _obj_to_attribute x = .ok a ∧ attrTruthy a = true)
    (hinf : ∀ x ∈ xs, ∃ t, _infer_type x = .ok t)
    (hne : ∃ x, x ∈ xs ∧ ∃ y, y ∈ xs ∧ _infer_type x ≠ _infer_type y) :
    _infer_type (.list xs) = .error InferErr.notHomogenous ∧
    ∃ arr, _obj_to_attribute (.list xs) = .ok (.arrayAttr arr) := by
  obtain ⟨ts, hts, hmap⟩ := inferList_ok xs hinf
  have hlen : xs.length = ts.length := by
    have := congrArg List.length hmap
    simpa using this
  obtain ⟨x0, hx0, y0, hy0, hxy⟩ := hne
  have hxs : xs ≠ [] := by
    intro hnil
    rw [hnil] at hx0
    cases hx0
  constructor
  · cases ts with
    | nil =>
        exfalso
        apply hxs
        cases xs with
        | nil => rfl
        | cons a l => cases hlen
    | cons t0 rest =>
        have hallF : ((t0 :: rest).all fun i => i == t0) = false := by
          cases hA : ((t0 :: rest).all fun i => i == t0) with
          | false => rfl
          | true =>
              exfalso
              have hall := List.all_eq_true.mp hA
              have hconst : ∀ x ∈ xs, _infer_type x = .ok t0 := by
                intro x hx
                have hmem : _infer_type x ∈ (t0 :: rest).map Except.ok := by
                  rw [← hmap]
                  exact List.mem_map_of_mem _infer_type hx
                obtain ⟨t, htmem, hteq⟩ := List.mem_map.mp hmem
                have : t = t0 := by
                  have := hall t htmem
                  exact eq_of_beq this
                rw [← hteq, this]
              exact hxy ((hconst x0 hx0).trans (hconst y0 hy0).symm)
        rw [_infer_type, hts]
        simp [hallF]
  · obtain ⟨arr, he, _, hall⟩ := encodeList_ok xs henc
    exact ⟨arr, by simp [_obj_to_attribute, he, hall]⟩

/-- C4 witness: two signals of differing bit-vector types, each carrying one
instance field, encode to truthy `DictAttr`s while their inferred types
disagree; inference on the pair fails yet encoding succeeds. -/
theorem infer_ambiguous_encode_truthy_witness :
    _infer_type (.list [.signal (.bits 1) [("x", .int 1)],
        .signal (.bits 2) [("x", .int 1)]]) = .error InferErr.notHomogenous ∧
    ∃ arr, _obj_to_attribute (.list [.signal (.bits 1) [("x", .int 1)],
        .signal (.bits 2) [("x", .int 1)]]) = .ok (.arrayAttr arr) :=
  infer_ambiguous_encode_truthy
    [.signal (.bits 1) [("x", .int 1)], .signal (.bits 2) [("x", .int 1)]]
    (by
      intro x hx
      simp only [List.mem_cons, List.not_mem_nil, or_false] at hx
      rcases hx with h | h <;> subst h <;>
        exact ⟨.dictAttr [("x", .intAttr 64 1)], rfl, rfl⟩)
    (by
      intro x hx
      simp only [List.mem_cons, List.not_mem_nil, or_false] at hx
      rcases hx with h | h <;> subst h
      · exact ⟨.bits 1, rfl⟩
      · exact ⟨.bits 2, rfl⟩)
    ⟨.signal (.bits 1) [("x", .int 1)], List.mem_cons_self _ _,
      .signal (.bits 2) [("x", .int 1)],
      List.mem_cons_of_mem _ (List.mem_cons_self _ _),
      by intro h; simp [_infer_type] at h⟩

/-- C5: for every integer value and declared type, `obj_to_typed_attribute`
returns an `IntegerAttr` at the type's declared width when the type is a
fixed-width bit-vector type, and fails with the unsupported-type error for
every other declared type. -/
theorem obj_to_typed_attribute_dispatch :
    (∀ (v : Int) (w : Nat),
      obj_to_typed_attribute v (.bits w) = .ok (.intAttr w v)) ∧
    ∀ (v : Int) (t : CDEType), t.isBitVector = false →
      obj_to_typed_attribute v t = .error (.unsupportedType t) := by
  refine ⟨fun v w => rfl, fun v t ht => ?_⟩
  cases t with
  | bits w => cases ht
  | array e n => rfl
  | other n => rfl
  | noneType => rfl

/-- C5 witness: a bit-vector type of width 8 yields a width-8 integer
attribute, and a non-bit-vector declared type is rejected. -/
theorem obj_to_typed_attribute_dispatch_witness :
    obj_to_typed_attribute 5 (.bits 8) = .ok (.intAttr 8 5) ∧
    obj_to_typed_attribute 5 (.other "StructType") =
      .error (.unsupportedType (.other "StructType")) :=
  ⟨obj_to_typed_attribute_dispatch.1 5 8,
    obj_to_typed_attribute_dispatch.2 5 (.other "StructType") rfl⟩

/-- C6: for every mapping whose values all encode successfully — and likewise
for every object exposing a named-field view — `encode` returns a `DictAttr`
whose key list is exactly the key/field-name list of the source (no key
synthesized or dropped), and whose entry at each position is `encode` of the
corresponding source value. -/
theorem encode_mapping_dict_attr (entries : List (String × PyVal))
    (h : ∀ kv ∈ entries, ∃ a, _obj_to_attribute kv.2 = .ok a) :
    (∃ l, _obj_to_attribute (.dict entries) = .ok (.dictAttr l) ∧
      l.map Prod.fst = entries.map Prod.fst ∧
      entries.map (fun kv => _obj_to_attribute kv.2) =
        l.map (fun kv => Except.ok kv.2)) ∧
    ∀ typeName, ∃ l,
      _obj_to_attribute (.obj typeName (some entries)) = .ok (.dictAttr l) ∧
      l.map Prod.fst = entries.map Prod.fst ∧
      entries.map (fun kv => _obj_to_attribute kv.2) =
        l.map (fun kv => Except.ok kv.2) := by
  obtain ⟨l, he, hfst, hmap⟩ := encodeEntries_ok entries h
  exact ⟨⟨l, by simp [_obj_to_attribute, he], hfst, hmap⟩,
    fun typeName => ⟨l, by simp [_obj_to_attribute, he], hfst, hmap⟩⟩

/-- C6 witness: a one-entry mapping encodes to the one-entry `DictAttr` with
the same key and the encoded value. -/
theorem encode_mapping_dict_attr_witness :
    ∃ l, _obj_to_attribute (.dict [("a", .int 1)]) = .ok (.dictAttr l) ∧
      l.map Prod.fst = [("a", PyVal.int 1)].map Prod.fst ∧
      [("a", PyVal.int 1)].map (fun kv => _obj_to_attribute kv.2) =
        l.map (fun kv => Except.ok kv.2) :=
  (encode_mapping_dict_attr [("a", .int 1)] (by
    intro kv hkv
    simp only [List.mem_singleton] at hkv
    subst hkv
    exact ⟨.intAttr 64 1, rfl⟩)).1

/-- C7: `encode(None)` returns `BoolAttr(false)`, the same attribute as
`encode(False)`: the null/unit input collapses to the boolean-false attribute
rather than a distinguishable null attribute. -/
theorem encode_none_collapses_to_false :
    _obj_to_attribute .pynone = .ok (.boolAttr false) ∧
    _obj_to_attribute .pynone = _obj_to_attribute (.bool false) :=
  ⟨rfl, rfl⟩

/-- C8: for every boolean the encoder returns a `BoolAttr` even though the
value also satisfies the host-language `isinstance(·, int)` test (the boolean
dispatch case precedes the integer case), and every non-boolean integer is
encoded as a signless width-64 `IntegerAttr` holding that value. -/
theorem encode_bool_wins_over_int :
    (∀ b : Bool, isinstanceInt (.bool b) = true ∧
      _obj_to_attribute (.bool b) = .ok (.boolAttr b)) ∧
    ∀ i : Int, _obj_to_attribute (.int i) = .ok (.intAttr 64 i) :=
  ⟨fun _ => ⟨rfl, rfl⟩, fun _ => rfl⟩

/-- C10: every object reaching the final dispatch cases that exposes a field
dictionary — including an empty one — is encoded as a `DictAttr` of its
instance fields; an encoding failure at such an object can only come from one
of its field values; and an object with no field dictionary is where the
`TypeError` is raised, carrying that object's class name. -/
theorem encode_field_view_objects (typeName : String)
    (fields : List (String × PyVal)) :
    ((∀ kv ∈ fields, ∃ a, _obj_to_attribute kv.2 = .ok a) →
      ∃ l, _obj_to_attribute (.obj typeName (some fields)) = .ok (.dictAttr l)) ∧
    (∀ e, _obj_to_attribute (.obj typeName (some fields)) = .error e →
      ∃ kv ∈ fields, _obj_to_attribute kv.2 = .error e) ∧
    _obj_to_attribute (.obj typeName none) = .error (.typeError typeName) := by
  refine ⟨?_, ?_, rfl⟩
  · intro h
    obtain ⟨l, he, _, _⟩ := encodeEntries_ok fields h
    exact ⟨l, by simp [_obj_to_attribute, he]⟩
  · intro e he
    rw [_obj_to_attribute] at he
    cases hf : encodeEntries fields with
    | error e1 =>
        rw [hf] at he
        cases he
        exact encodeEntries_error fields e hf
    | ok l => rw [hf] at he; cases he

/-- C10 witness: an object with an empty field dictionary still encodes to a
(empty) `DictAttr`, while a field-less value such as a float is rejected with
the `TypeError` naming its class. -/
theorem encode_field_view_objects_witness :
    (∃ l, _obj_to_attribute (.obj "Record" (some [])) = .ok (.dictAttr l)) ∧
    _obj_to_attribute (.obj "float" none) = .error (.typeError "float") :=
  ⟨(encode_field_view_objects "Record" []).1 (by intro kv hkv; cases hkv),
    (encode_field_view_objects "float" []).2.2⟩

end PycdeSupport
